import Mathlib

/-!
Shallow embedding of the job-scheduling control surface of
`backend/app/schedulers/routes/scheduler.py`.

The routes manipulate two pieces of state:
* the live APScheduler engine's job list (`scheduler.get_jobs()`, `job.resume()`,
  `job.pause()`, `job.reschedule(...)`, `scheduler.remove_job(...)`), and
* the `JobMetadata` database table (accessed through `manage_job_metadata` and
  direct `select ... filter_by(job_id=...)` queries, which return the first
  matching row or `None`).

The engine instance itself (`init_scheduler` and the APScheduler job handles)
lives outside the translated sources, so the engine primitives are modelled
from the spec, section 4.1: a job descriptor carries an id, a name, an interval
in minutes and a Scheduled/Paused run state; `resume` makes it Scheduled,
`pause` makes it Paused, `reschedule` replaces the interval, `remove`
unregisters it, and `get_jobs` enumerates the descriptors.  Everything else is
translated directly from the Python routes: each route is a pure function from
the pre-state to a response (`none` models an unhandled Python exception such
as the `AttributeError` raised by `setattr(None, ...)` or
`None.time_interval`), a post-state, and a trace of the engine/store mutations
it performed, in order.
-/

/-- Run state of a live engine job (spec section 4.1: Scheduled or Paused). -/
inductive JobState where
  | Scheduled : JobState
  | Paused : JobState
deriving DecidableEq, Repr

/-- A live engine job handle as the routes observe it: `job.id`, `job.name`,
the interval-trigger minutes, and the run state.  Modelled from the spec:
the engine (`init_scheduler` / APScheduler) is outside the translated
sources. -/
structure JobDescriptor where
  id : String
  name : String
  minutes : Int
  state : JobState
deriving DecidableEq, Repr

/-- A row of the `JobMetadata` table: `job_id`, `time_interval`, `enabled`
(from `app.schedulers.models.scheduler.JobMetadata` as used by the routes). -/
structure JobMetadata where
  job_id : String
  time_interval : Int
  enabled : Bool
deriving DecidableEq, Repr

/-- Combined state the routes act on: the engine's job list (in `get_jobs()`
enumeration order) and the metadata table (in query order: `.first()` returns
the first matching row). -/
structure SchedState where
  jobs : List JobDescriptor
  store : List JobMetadata
deriving DecidableEq, Repr

/-- The `{"success": ..., "message": ...}` dictionaries the mutating routes
return. -/
structure ApiResponse where
  success : Bool
  message : String
deriving DecidableEq, Repr

/-- One entry of the list built by `get_all_jobs`:
`{"id": ..., "name": ..., "time_interval": ..., "enabled": ...}`. -/
structure JobEntry where
  id : String
  name : String
  time_interval : Int
  enabled : Bool
deriving DecidableEq, Repr

/-- The `JobsResponse` model returned by `get_all_jobs`. -/
structure JobsResponse where
  jobs : List JobEntry
  success : Bool
  message : String
deriving DecidableEq, Repr

/-- A mutation event: one engine mutation (`resume`/`pause`/`reschedule`/
`remove_job`) or one committed store write (`manage_job_metadata`). -/
inductive Event where
  | engineMut : Event
  | storeMut : Event
deriving DecidableEq, Repr

/-- Outcome of one mutating route: the response (`none` = an unhandled
exception escaped the handler), the post-state, and the ordered trace of
mutations performed. -/
structure MutOut where
  resp : Option ApiResponse
  state : SchedState
  trace : List Event
deriving DecidableEq, Repr

/-- Update the first list element satisfying `p` (the object returned by a
first-match lookup is mutated in place; the rest of the list is untouched). -/
def updFirst {α : Type} (p : α → Bool) (f : α → α) : List α → List α
  | [] => []
  | a :: as => if p a then f a :: as else a :: updFirst p f as

/-- Remove the first list element satisfying `p` (deleting the row returned by
a first-match lookup). -/
def eraseFirst {α : Type} (p : α → Bool) : List α → List α
  | [] => []
  | a :: as => if p a then as else a :: eraseFirst p as

/-- `find_job_by_id`: scan `scheduler.get_jobs()` in order and return the
first job whose `id` matches, else `None` (scheduler.py lines 20-34). -/
def find_job_by_id (st : SchedState) (job_id : String) : Option JobDescriptor :=
  st.jobs.find? (fun j => j.id == job_id)

/-- `manage_job_metadata(session, job_id, "update", time_interval=v)`:
query the first `JobMetadata` row with this `job_id`, set its attribute and
commit.  If the query returns `None`, `setattr(None, ...)` raises
`AttributeError`: modelled as `none` (scheduler.py lines 37-61). -/
def manage_job_metadata_update (store : List JobMetadata) (job_id : String)
    (time_interval : Int) : Option (List JobMetadata) :=
  match store.find? (fun m => m.job_id == job_id) with
  | some _ => some (updFirst (fun m => m.job_id == job_id)
      (fun m => { m with time_interval := time_interval }) store)
  | none => none

/-- `manage_job_metadata(session, job_id, "delete")`: query the first matching
row and delete it; `session.delete(None)` on a missing row raises, modelled as
`none` (scheduler.py lines 37-61). -/
def manage_job_metadata_delete (store : List JobMetadata) (job_id : String) :
    Option (List JobMetadata) :=
  match store.find? (fun m => m.job_id == job_id) with
  | some _ => some (eraseFirst (fun m => m.job_id == job_id) store)
  | none => none

/-- `start_job` (scheduler.py lines 89-109): find the job; if found call
`job.resume()` and report success, else report "Job not found".  The metadata
store is never touched. -/
def start_job (st : SchedState) (job_id : String) : MutOut :=
  match find_job_by_id st job_id with
  | some _ =>
      let jobs1 := updFirst (fun j => j.id == job_id)
        (fun j => { j with state := JobState.Scheduled }) st.jobs
      { resp := some { success := true, message := "Job started successfully" },
        state := { st with jobs := jobs1 },
        trace := [Event.engineMut] }
  | none =>
      { resp := some { success := false, message := "Job not found" },
        state := st, trace := [] }

/-- `pause_job` (scheduler.py lines 112-132): find the job; if found call
`job.pause()` and report success, else report "Job not found".  The metadata
store is never touched. -/
def pause_job (st : SchedState) (job_id : String) : MutOut :=
  match find_job_by_id st job_id with
  | some _ =>
      let jobs1 := updFirst (fun j => j.id == job_id)
        (fun j => { j with state := JobState.Paused }) st.jobs
      { resp := some { success := true, message := "Job paused successfully" },
        state := { st with jobs := jobs1 },
        trace := [Event.engineMut] }
  | none =>
      { resp := some { success := false, message := "Job not found" },
        state := st, trace := [] }

/-- `update_job` (scheduler.py lines 135-162): find the job; if found,
`job.reschedule(trigger="interval", minutes=time_interval)` (no validation of
the value), then `manage_job_metadata(..., "update", time_interval=...)`, then
report success.  If the metadata row is missing the store update raises after
the engine was already rescheduled.  Unknown id reports "Job not found". -/
def update_job (st : SchedState) (job_id : String) (time_interval : Int) : MutOut :=
  match find_job_by_id st job_id with
  | some _ =>
      let jobs1 := updFirst (fun j => j.id == job_id)
        (fun j => { j with minutes := time_interval }) st.jobs
      match manage_job_metadata_update st.store job_id time_interval with
      | some store1 =>
          { resp := some { success := true, message := "Job updated successfully" },
            state := { jobs := jobs1, store := store1 },
            trace := [Event.engineMut, Event.storeMut] }
      | none =>
          { resp := none, state := { jobs := jobs1, store := st.store },
            trace := [Event.engineMut] }
  | none =>
      { resp := some { success := false, message := "Job not found" },
        state := st, trace := [] }

/-- `delete_job` (scheduler.py lines 165-185): find the job; if found,
`scheduler.remove_job(job_id)`, then `manage_job_metadata(..., "delete")`,
then report success.  A missing metadata row makes the store deletion raise
after the engine job was already removed.  Unknown id reports "Job not
found". -/
def delete_job (st : SchedState) (job_id : String) : MutOut :=
  match find_job_by_id st job_id with
  | some _ =>
      let jobs1 := eraseFirst (fun j => j.id == job_id) st.jobs
      match manage_job_metadata_delete st.store job_id with
      | some store1 =>
          { resp := some { success := true, message := "Job deleted successfully" },
            state := { jobs := jobs1, store := store1 },
            trace := [Event.engineMut, Event.storeMut] }
      | none =>
          { resp := none, state := { jobs := jobs1, store := st.store },
            trace := [Event.engineMut] }
  | none =>
      { resp := some { success := false, message := "Job not found" },
        state := st, trace := [] }

/-- The loop body of `get_all_jobs` (scheduler.py lines 79-84): for each engine
job in order, query the first `JobMetadata` row with its id and read
`.time_interval` / `.enabled`; if the query returned `None` the attribute
access raises (`none`). -/
def collectJobs (store : List JobMetadata) : List JobDescriptor → Option (List JobEntry)
  | [] => some []
  | j :: js =>
      match store.find? (fun m => m.job_id == j.id) with
      | none => none
      | some m =>
          (collectJobs store js).map
            (fun es => { id := j.id, name := j.name,
                         time_interval := m.time_interval,
                         enabled := m.enabled } :: es)

/-- `get_all_jobs` (scheduler.py lines 64-86): enumerate engine jobs, enrich
each from the store, and return a `JobsResponse` with `success=True` and
message "Jobs successfully retrieved."; `none` models the unhandled
`AttributeError` when a row is missing.  The state is returned unchanged: the
handler performs no mutation. -/
def get_all_jobs (st : SchedState) : Option JobsResponse × SchedState :=
  match collectJobs st.store st.jobs with
  | some es =>
      (some { jobs := es, success := true, message := "Jobs successfully retrieved." }, st)
  | none => (none, st)

/-- Engine-side interval of the first job with this id, if any. -/
def engineInterval (st : SchedState) (id : String) : Option Int :=
  (st.jobs.find? (fun j => j.id == id)).map (fun j => j.minutes)

/-- Engine-side run state of the first job with this id, if any. -/
def engineState (st : SchedState) (id : String) : Option JobState :=
  (st.jobs.find? (fun j => j.id == id)).map (fun j => j.state)

/-- Store-side interval of the first metadata row with this id, if any. -/
def storeInterval (st : SchedState) (id : String) : Option Int :=
  (st.store.find? (fun m => m.job_id == id)).map (fun m => m.time_interval)

/-- Store-side enabled flag of the first metadata row with this id, if any. -/
def storeEnabled (st : SchedState) (id : String) : Option Bool :=
  (st.store.find? (fun m => m.job_id == id)).map (fun m => m.enabled)

/-- One control-surface command of the kind claim C1 quantifies over. -/
inductive Cmd where
  | start : String → Cmd
  | pause : String → Cmd
  | upd : String → Int → Cmd
deriving DecidableEq, Repr

/-- Dispatch one command to its route. -/
def runCmd (st : SchedState) : Cmd → MutOut
  | Cmd.start id => start_job st id
  | Cmd.pause id => pause_job st id
  | Cmd.upd id m => update_job st id m

/-- A call "reports full success": it returned a response (no exception) with
`success = True`. -/
def isFullSuccess (o : MutOut) : Bool :=
  match o.resp with
  | some r => r.success
  | none => false

/-- Run a command sequence; the Bool is `true` iff every call reported full
success. -/
def runCmds (st : SchedState) : List Cmd → SchedState × Bool
  | [] => (st, true)
  | c :: cs =>
      let o := runCmd st c
      let r := runCmds o.state cs
      (r.1, isFullSuccess o && r.2)

/-- For every id registered in the engine, the store's interval for that id
exists and equals the engine's interval (the interval half of the spec's
Engine/Store invariant). -/
def IntervalAgree (st : SchedState) : Prop :=
  ∀ id ∈ st.jobs.map (fun j => j.id), storeInterval st id = engineInterval st id

/-- `true` iff no store write occurs before the first engine mutation, i.e.
every store write in the trace is preceded by an engine mutation. -/
def storePrecededByEngine : List Event → Bool
  | [] => true
  | Event.engineMut :: _ => true
  | Event.storeMut :: _ => false

/-- The entry `get_all_jobs` builds for one engine job when its metadata row
exists (the `none` branch is never reached under that hypothesis). -/
def entryOf (store : List JobMetadata) (j : JobDescriptor) : JobEntry :=
  match store.find? (fun m => m.job_id == j.id) with
  | some m =>
      { id := j.id, name := j.name, time_interval := m.time_interval, enabled := m.enabled }
  | none => { id := j.id, name := j.name, time_interval := 0, enabled := false }

/-- A consistent one-job state: job "j1" Scheduled at 10 minutes, with a
matching metadata row `enabled = true`. -/
def st0 : SchedState :=
  { jobs := [{ id := "j1", name := "job one", minutes := 10, state := JobState.Scheduled }],
    store := [{ job_id := "j1", time_interval := 10, enabled := true }] }

/-- A state with two live jobs where only "a" has a metadata row; "b" is an
engine job with no store row. -/
def st2 : SchedState :=
  { jobs := [{ id := "a", name := "A", minutes := 5, state := JobState.Scheduled },
             { id := "b", name := "B", minutes := 5, state := JobState.Scheduled }],
    store := [{ job_id := "a", time_interval := 5, enabled := true }] }

/-! Generic lemmas about `updFirst` and `List.find?`. -/

/-- Mapping a function `g` that is invariant under the update commutes with
`updFirst` (so updating one element preserves the list's `g`-image). -/
theorem updFirst_map {α β : Type} (p : α → Bool) (f : α → α) (g : α → β)
    (hg : ∀ a, g (f a) = g a) :
    ∀ l : List α, (updFirst p f l).map g = l.map g := by
  intro l
  induction l with
  | nil => rfl
  | cons a as ih =>
      cases hpa : p a with
      | true => simp [updFirst, hpa, hg]
      | false => simp [updFirst, hpa, ih]

/-- Looking up the updated element after `updFirst` (when the update does not
change whether `p` holds) returns the image under `f` of the old lookup. -/
theorem find_updFirst_self {α : Type} (p : α → Bool) (f : α → α)
    (hp : ∀ a, p (f a) = p a) :
    ∀ l : List α, (updFirst p f l).find? p = (l.find? p).map f := by
  intro l
  induction l with
  | nil => rfl
  | cons a as ih =>
      cases hpa : p a with
      | true => simp [updFirst, hpa, List.find?, hp]
      | false => simp [updFirst, hpa, List.find?, ih]

/-- `updFirst` at `p` is invisible to a lookup at a predicate `q` that is
disjoint from `p` and invariant under `f`. -/
theorem find_updFirst_other {α : Type} (p q : α → Bool) (f : α → α)
    (hq : ∀ a, q (f a) = q a) (hpq : ∀ a, p a = true → q a = false) :
    ∀ l : List α, (updFirst p f l).find? q = l.find? q := by
  intro l
  induction l with
  | nil => rfl
  | cons a as ih =>
      cases hpa : p a with
      | true => simp [updFirst, hpa, List.find?, hq, hpq a hpa]
      | false =>
          cases hqa : q a with
          | true => simp [updFirst, hpa, List.find?, hqa]
          | false => simp [updFirst, hpa, List.find?, hqa, ih]

/-- A projection `g` untouched by the update reads the same through `find?`
before and after `updFirst`. -/
theorem find_map_updFirst {α β : Type} (p q : α → Bool) (f : α → α) (g : α → β)
    (hq : ∀ a, q (f a) = q a) (hg : ∀ a, g (f a) = g a) :
    ∀ l : List α, ((updFirst p f l).find? q).map g = (l.find? q).map g := by
  intro l
  induction l with
  | nil => rfl
  | cons a as ih =>
      cases hpa : p a with
      | true =>
          cases hqa : q a with
          | true => simp [updFirst, hpa, List.find?, hq, hqa, hg]
          | false => simp [updFirst, hpa, List.find?, hq, hqa]
      | false =>
          cases hqa : q a with
          | true => simp [updFirst, hpa, List.find?, hqa]
          | false => simp [updFirst, hpa, List.find?, hqa, ih]

/-- `updFirst` with an idempotent update that preserves `p` is idempotent. -/
theorem updFirst_idem {α : Type} (p : α → Bool) (f : α → α)
    (hp : ∀ a, p (f a) = p a) (hff : ∀ a, f (f a) = f a) :
    ∀ l : List α, updFirst p f (updFirst p f l) = updFirst p f l := by
  intro l
  induction l with
  | nil => rfl
  | cons a as ih =>
      cases hpa : p a with
      | true => simp [updFirst, hpa, hp, hff]
      | false => simp [updFirst, hpa, ih]

/-- An id absent from every job makes `find_job_by_id` return `none`. -/
theorem find_job_by_id_eq_none (st : SchedState) (id : String)
    (h : ∀ j ∈ st.jobs, j.id ≠ id) :
    find_job_by_id st id = none := by
  unfold find_job_by_id
  rw [List.find?_eq_none]
  intro j hj
  simp [h j hj]

/-! Claim theorems. -/

/-- C5: for every job id that was never registered in the Scheduler Engine,
`start_job(id)` returns `success=false` with the message "Job not found". -/
theorem c5_start_job_unknown_id (st : SchedState) (id : String)
    (h : ∀ j ∈ st.jobs, j.id ≠ id) :
    (start_job st id).resp = some { success := false, message := "Job not found" } := by
  simp [start_job, find_job_by_id_eq_none st id h]

/-- C5 witness: starting the never-registered id "ghost" in the concrete state
`st0` reports `success=false`, "Job not found". -/
theorem c5_start_job_unknown_id_witness :
    (start_job st0 "ghost").resp = some { success := false, message := "Job not found" } :=
  c5_start_job_unknown_id st0 "ghost" (by decide)

/-- C8: for an id not present in the Engine's job set, each of the four
mutating endpoints returns exactly `success=False`, "Job not found", performs
no mutation (empty trace), and leaves the whole state (Engine jobs and Store)
unchanged. -/
theorem c8_not_found_branch_atomic (st : SchedState) (id : String) (tv : Int)
    (h : ∀ j ∈ st.jobs, j.id ≠ id) :
    start_job st id = ⟨some { success := false, message := "Job not found" }, st, []⟩ ∧
    pause_job st id = ⟨some { success := false, message := "Job not found" }, st, []⟩ ∧
    update_job st id tv = ⟨some { success := false, message := "Job not found" }, st, []⟩ ∧
    delete_job st id = ⟨some { success := false, message := "Job not found" }, st, []⟩ := by
  have hf := find_job_by_id_eq_none st id h
  refine ⟨?_, ?_, ?_, ?_⟩
  · simp [start_job, hf]
  · simp [pause_job, hf]
  · simp [update_job, hf]
  · simp [delete_job, hf]

/-- C8 witness: the four endpoints on the unknown id "ghost" in `st0` all
report "Job not found" and leave the state untouched. -/
theorem c8_not_found_branch_atomic_witness :
    start_job st0 "ghost" = ⟨some { success := false, message := "Job not found" }, st0, []⟩ ∧
    pause_job st0 "ghost" = ⟨some { success := false, message := "Job not found" }, st0, []⟩ ∧
    update_job st0 "ghost" 7 = ⟨some { success := false, message := "Job not found" }, st0, []⟩ ∧
    delete_job st0 "ghost" = ⟨some { success := false, message := "Job not found" }, st0, []⟩ :=
  c8_not_found_branch_atomic st0 "ghost" 7 (by decide)

/-- C3 counterexample: deleting the unknown id "ghost" in the concrete state
`st0` returns `success=False` with "Job not found" — not the success the claim
asserts. -/
theorem c3_delete_job_unknown_id_counterexample :
    delete_job st0 "ghost" = ⟨some { success := false, message := "Job not found" }, st0, []⟩ := by
  decide

/-- C3 amended: `delete_job` on an id unknown to the Engine is a no-op on the
state, but it reports failure (`success=False`, "Job not found"), not
success. -/
theorem c3_delete_job_unknown_id (st : SchedState) (id : String)
    (h : ∀ j ∈ st.jobs, j.id ≠ id) :
    delete_job st id = ⟨some { success := false, message := "Job not found" }, st, []⟩ := by
  simp [delete_job, find_job_by_id_eq_none st id h]

/-- C3 amended witness: deleting the unknown id "nope" in `st2` reports
"Job not found" and changes nothing. -/
theorem c3_delete_job_unknown_id_witness :
    delete_job st2 "nope" = ⟨some { success := false, message := "Job not found" }, st2, []⟩ :=
  c3_delete_job_unknown_id st2 "nope" (by decide)

/-- C9: `start_job` and `pause_job` never touch the metadata store — for every
id and state the store after the call equals the store before — and on the
engine side they can change only the run state: id, name and interval of every
job are preserved. -/
theorem c9_start_pause_store_frame (st : SchedState) (id : String) :
    (start_job st id).state.store = st.store ∧
    (pause_job st id).state.store = st.store ∧
    (start_job st id).state.jobs.map (fun j => (j.id, j.name, j.minutes)) =
      st.jobs.map (fun j => (j.id, j.name, j.minutes)) ∧
    (pause_job st id).state.jobs.map (fun j => (j.id, j.name, j.minutes)) =
      st.jobs.map (fun j => (j.id, j.name, j.minutes)) := by
  refine ⟨?_, ?_, ?_, ?_⟩
  · cases hf : find_job_by_id st id <;> simp [start_job, hf]
  · cases hf : find_job_by_id st id <;> simp [pause_job, hf]
  · cases hf : find_job_by_id st id
    · simp [start_job, hf]
    · simp only [start_job, hf]
      exact updFirst_map (fun j => j.id == id)
        (fun j => { j with state := JobState.Scheduled })
        (fun j => (j.id, j.name, j.minutes)) (fun a => rfl) st.jobs
  · cases hf : find_job_by_id st id
    · simp [pause_job, hf]
    · simp only [pause_job, hf]
      exact updFirst_map (fun j => j.id == id)
        (fun j => { j with state := JobState.Paused })
        (fun j => (j.id, j.name, j.minutes)) (fun a => rfl) st.jobs

/-- C7: in each of the four mutating routes, for every state and input, no
store write ever precedes the engine mutation in the route's mutation trace:
the Engine is always mutated first. -/
theorem c7_engine_mutation_before_store (st : SchedState) (id : String) (tv : Int) :
    storePrecededByEngine (start_job st id).trace = true ∧
    storePrecededByEngine (pause_job st id).trace = true ∧
    storePrecededByEngine (update_job st id tv).trace = true ∧
    storePrecededByEngine (delete_job st id).trace = true := by
  refine ⟨?_, ?_, ?_, ?_⟩
  · cases hf : find_job_by_id st id <;> simp [start_job, hf, storePrecededByEngine]
  · cases hf : find_job_by_id st id <;> simp [pause_job, hf, storePrecededByEngine]
  · cases hf : find_job_by_id st id
    · simp [update_job, hf, storePrecededByEngine]
    · cases hm : manage_job_metadata_update st.store id tv <;>
        simp [update_job, hf, hm, storePrecededByEngine]
  · cases hf : find_job_by_id st id
    · simp [delete_job, hf, storePrecededByEngine]
    · cases hm : manage_job_metadata_delete st.store id <;>
        simp [delete_job, hf, hm, storePrecededByEngine]

/-- C6: if `pause_job` reports success, pausing the same id again reports the
same success and leaves the whole state exactly as after the first call. -/
theorem c6_pause_job_idempotent (st : SchedState) (id : String)
    (h : (pause_job st id).resp = some { success := true, message := "Job paused successfully" }) :
    pause_job (pause_job st id).state id =
      { resp := some { success := true, message := "Job paused successfully" },
        state := (pause_job st id).state, trace := [Event.engineMut] } := by
  cases hf : find_job_by_id st id with
  | none =>
      rw [pause_job, hf] at h
      simp at h
  | some j =>
      have hfu : st.jobs.find? (fun x => x.id == id) = some j := hf
      have hst1 : (pause_job st id).state =
          SchedState.mk (updFirst (fun x => x.id == id)
            (fun x => { x with state := JobState.Paused }) st.jobs) st.store := by
        simp [pause_job, hf]
      have hfind1 : find_job_by_id (pause_job st id).state id =
          some { j with state := JobState.Paused } := by
        rw [hst1]
        unfold find_job_by_id
        simp only []
        rw [find_updFirst_self (fun x => x.id == id)
          (fun x => { x with state := JobState.Paused }) (fun a => rfl) st.jobs, hfu]
        rfl
      have hidem := updFirst_idem (fun x => x.id == id)
        (fun x => { x with state := JobState.Paused }) (fun a => rfl) (fun a => rfl) st.jobs
      rw [pause_job, hfind1, hst1]
      simp [hidem]

/-- C6 witness: pausing "j1" in `st0` succeeds, and pausing it again returns
the same success response with the state unchanged. -/
theorem c6_pause_job_idempotent_witness :
    pause_job (pause_job st0 "j1").state "j1" =
      { resp := some { success := true, message := "Job paused successfully" },
        state := (pause_job st0 "j1").state, trace := [Event.engineMut] } :=
  c6_pause_job_idempotent st0 "j1" (by decide)

/-- C2 counterexample: in `st2` the live job "b" has no metadata row, and
`get_all_jobs` does not return successfully — it dies with an unhandled
`AttributeError` (`none`), reporting neither "b" with a sentinel nor the
well-formed job "a". -/
theorem c2_missing_metadata_counterexample :
    st2.jobs.length = 2 ∧
    st2.store.find? (fun m => m.job_id == "b") = none ∧
    get_all_jobs st2 = (none, st2) := by decide

/-- If some live job has no metadata row, the `get_all_jobs` loop raises. -/
theorem collectJobs_missing (store : List JobMetadata) :
    ∀ jobs : List JobDescriptor,
      (∃ j ∈ jobs, store.find? (fun m => m.job_id == j.id) = none) →
      collectJobs store jobs = none := by
  intro jobs
  induction jobs with
  | nil => intro h; simp at h
  | cons j js ih =>
      intro h
      obtain ⟨x, hx, hnone⟩ := h
      rcases List.mem_cons.mp hx with hxj | hxs
      · subst hxj
        simp [collectJobs, hnone]
      · cases hm : store.find? (fun m => m.job_id == j.id) with
        | none => simp [collectJobs, hm]
        | some m => simp [collectJobs, hm, ih ⟨x, hxs, hnone⟩]

/-- C2 amended: when any live Engine job has no matching Store metadata row,
`get_all_jobs` does not degrade gracefully — the whole listing fails with an
unhandled error (`None.time_interval` raises `AttributeError`), so no job is
reported at all; there is no sentinel marker. -/
theorem c2_missing_metadata_fails_listing (st : SchedState)
    (h : ∃ j ∈ st.jobs, st.store.find? (fun m => m.job_id == j.id) = none) :
    get_all_jobs st = (none, st) := by
  simp [get_all_jobs, collectJobs_missing st.store st.jobs h]

/-- C2 amended witness: in `st2`, where "b" lacks a metadata row, the listing
fails as a whole. -/
theorem c2_missing_metadata_fails_listing_witness :
    get_all_jobs st2 = (none, st2) :=
  c2_missing_metadata_fails_listing st2
    ⟨{ id := "b", name := "B", minutes := 5, state := JobState.Scheduled },
      by decide, by decide⟩

/-- C4 counterexample: on the registered job "j1" (interval 10), requesting
interval 0 and interval -5 both report success ("Job updated successfully"),
and both the engine trigger and the store row take the non-positive value —
nothing reports `InvalidInterval` and the schedule does not stay unchanged. -/
theorem c4_nonpositive_interval_counterexample :
    (update_job st0 "j1" 0).resp = some { success := true, message := "Job updated successfully" } ∧
    engineInterval (update_job st0 "j1" 0).state "j1" = some 0 ∧
    storeInterval (update_job st0 "j1" 0).state "j1" = some 0 ∧
    (update_job st0 "j1" (-5)).resp = some { success := true, message := "Job updated successfully" } ∧
    engineInterval (update_job st0 "j1" (-5)).state "j1" = some (-5) ∧
    storeInterval (update_job st0 "j1" (-5)).state "j1" = some (-5) := by decide

/-- C4 amended: `update_job` performs no validation of the requested interval.
For every registered job with a metadata row and every requested value —
including 0 and -5 — it reports success and overwrites both the engine
trigger's minutes and the store row's `time_interval` with the requested
value. -/
theorem c4_update_job_no_validation (st : SchedState) (id : String) (tv : Int)
    (hj : (st.jobs.find? (fun j => j.id == id)).isSome = true)
    (hm : (st.store.find? (fun m => m.job_id == id)).isSome = true) :
    (update_job st id tv).resp = some { success := true, message := "Job updated successfully" } ∧
    engineInterval (update_job st id tv).state id = some tv ∧
    storeInterval (update_job st id tv).state id = some tv := by
  obtain ⟨j, hjf⟩ := Option.isSome_iff_exists.mp hj
  obtain ⟨m, hmf⟩ := Option.isSome_iff_exists.mp hm
  have hff : find_job_by_id st id = some j := hjf
  have hmm : manage_job_metadata_update st.store id tv =
      some (updFirst (fun x => x.job_id == id)
        (fun x => { x with time_interval := tv }) st.store) := by
    unfold manage_job_metadata_update
    rw [hmf]
  refine ⟨?_, ?_, ?_⟩
  · simp [update_job, hff, hmm]
  · simp only [update_job, hff, hmm]
    unfold engineInterval
    simp only []
    rw [find_updFirst_self (fun x => x.id == id)
      (fun x => { x with minutes := tv }) (fun a => rfl) st.jobs, hjf]
    rfl
  · simp only [update_job, hff, hmm]
    unfold storeInterval
    simp only []
    rw [find_updFirst_self (fun x => x.job_id == id)
      (fun x => { x with time_interval := tv }) (fun a => rfl) st.store, hmf]
    rfl

/-- C4 amended witness: updating "j1" in `st0` to -5 succeeds and sets both
intervals to -5. -/
theorem c4_update_job_no_validation_witness :
    (update_job st0 "j1" (-5)).resp = some { success := true, message := "Job updated successfully" } ∧
    engineInterval (update_job st0 "j1" (-5)).state "j1" = some (-5) ∧
    storeInterval (update_job st0 "j1" (-5)).state "j1" = some (-5) :=
  c4_update_job_no_validation st0 "j1" (-5) (by decide) (by decide)

/-- When every live job has a metadata row, the `get_all_jobs` loop returns
one entry per job, in order. -/
theorem collectJobs_complete (store : List JobMetadata) :
    ∀ jobs : List JobDescriptor,
      (∀ j ∈ jobs, (store.find? (fun m => m.job_id == j.id)).isSome = true) →
      collectJobs store jobs = some (jobs.map (entryOf store)) := by
  intro jobs
  induction jobs with
  | nil => intro _; rfl
  | cons j js ih =>
      intro h
      have hj := h j (List.mem_cons_self j js)
      cases hm : store.find? (fun m => m.job_id == j.id) with
      | none => rw [hm] at hj; simp at hj
      | some m =>
          have hrest := ih (fun x hx => h x (List.mem_cons_of_mem j hx))
          simp [collectJobs, hm, hrest, entryOf]

/-- C10: when every live Engine job has a matching Store row, `get_all_jobs`
returns one entry per Engine job in enumeration order, carrying the job's id
and name and the store row's `time_interval` and `enabled`, with
`success=True` and message "Jobs successfully retrieved.", and the state
(Engine and Store) is unchanged. -/
theorem c10_get_all_jobs_complete (st : SchedState)
    (h : ∀ j ∈ st.jobs, (st.store.find? (fun m => m.job_id == j.id)).isSome = true) :
    get_all_jobs st =
      (some { jobs := st.jobs.map (entryOf st.store), success := true,
              message := "Jobs successfully retrieved." }, st) := by
  simp [get_all_jobs, collectJobs_complete st.store st.jobs h]

/-- C10 witness: listing `st0` yields exactly the entry for "j1" with the
store row's values, and the state is untouched. -/
theorem c10_get_all_jobs_complete_witness :
    get_all_jobs st0 =
      (some { jobs := st0.jobs.map (entryOf st0.store), success := true,
              message := "Jobs successfully retrieved." }, st0) :=
  c10_get_all_jobs_complete st0 (by decide)

/-- C1 counterexample: in the consistent state `st0` (job "j1" Scheduled,
store row `enabled = true`), `pause_job "j1"` reports full success, yet
afterwards the engine state is Paused while the store's enabled flag is still
`true` — so `Store.enabled == (Engine.state == Scheduled)` is violated and a
fully successful pause did not set `Store.enabled = false`. -/
theorem c1_enabled_half_counterexample :
    isFullSuccess (pause_job st0 "j1") = true ∧
    engineState (pause_job st0 "j1").state "j1" = some JobState.Paused ∧
    storeEnabled (pause_job st0 "j1").state "j1" = some true := by decide

/-- Updating the engine jobs with an id- and minutes-preserving function
preserves the interval half of the Engine/Store invariant. -/
theorem IntervalAgree_state_update (st : SchedState) (id : String)
    (f : JobDescriptor → JobDescriptor)
    (hid : ∀ a, (f a).id = a.id) (hmin : ∀ a, (f a).minutes = a.minutes)
    (hA : IntervalAgree st) :
    IntervalAgree (SchedState.mk (updFirst (fun x => x.id == id) f st.jobs) st.store) := by
  have hmap : (updFirst (fun y => y.id == id) f st.jobs).map (fun j => j.id) =
      st.jobs.map (fun j => j.id) :=
    updFirst_map (fun y => y.id == id) f (fun j => j.id) hid st.jobs
  intro x hx
  have hx' : x ∈ st.jobs.map (fun j => j.id) := by
    rw [← hmap]
    exact hx
  have hE : engineInterval (SchedState.mk (updFirst (fun y => y.id == id) f st.jobs) st.store) x =
      engineInterval st x := by
    unfold engineInterval
    exact find_map_updFirst (fun y => y.id == id) (fun y => y.id == x) f
      (fun j => j.minutes)
      (fun a => by
        show ((f a).id == x) = (a.id == x)
        rw [hid]) hmin st.jobs
  have hS : storeInterval (SchedState.mk (updFirst (fun y => y.id == id) f st.jobs) st.store) x =
      storeInterval st x := rfl
  rw [hE, hS]
  exact hA x hx'

/-- One fully successful `startJob`/`pauseJob`/`updateInterval` call preserves
the interval half of the Engine/Store invariant. -/
theorem runCmd_preserves_IntervalAgree (st : SchedState) (c : Cmd)
    (hA : IntervalAgree st) (hS : isFullSuccess (runCmd st c) = true) :
    IntervalAgree (runCmd st c).state := by
  cases c with
  | start id =>
      cases hf : find_job_by_id st id with
      | none => simpa [runCmd, start_job, hf] using hA
      | some j =>
          simp only [runCmd, start_job, hf]
          exact IntervalAgree_state_update st id
            (fun x => { x with state := JobState.Scheduled })
            (fun a => rfl) (fun a => rfl) hA
  | pause id =>
      cases hf : find_job_by_id st id with
      | none => simpa [runCmd, pause_job, hf] using hA
      | some j =>
          simp only [runCmd, pause_job, hf]
          exact IntervalAgree_state_update st id
            (fun x => { x with state := JobState.Paused })
            (fun a => rfl) (fun a => rfl) hA
  | upd id tv =>
      cases hf : find_job_by_id st id with
      | none => simpa [runCmd, update_job, hf] using hA
      | some j =>
          cases hm : st.store.find? (fun m => m.job_id == id) with
          | none =>
              simp [runCmd, update_job, hf, manage_job_metadata_update, hm,
                isFullSuccess] at hS
          | some m =>
              have hmm : manage_job_metadata_update st.store id tv =
                  some (updFirst (fun x => x.job_id == id)
                    (fun x => { x with time_interval := tv }) st.store) := by
                unfold manage_job_metadata_update
                rw [hm]
              simp only [runCmd, update_job, hf, hmm]
              have hmapJ : (updFirst (fun y => y.id == id)
                  (fun y => { y with minutes := tv }) st.jobs).map (fun j => j.id) =
                  st.jobs.map (fun j => j.id) :=
                updFirst_map (fun y => y.id == id)
                  (fun y => { y with minutes := tv }) (fun j => j.id) (fun a => rfl) st.jobs
              intro x hx
              have hx' : x ∈ st.jobs.map (fun j => j.id) := by
                rw [← hmapJ]
                exact hx
              by_cases hxid : x = id
              · subst hxid
                have hE : (updFirst (fun y => y.id == x)
                    (fun y => { y with minutes := tv }) st.jobs).find? (fun y => y.id == x) =
                    some { j with minutes := tv } := by
                  rw [find_updFirst_self (fun y => y.id == x)
                    (fun y => { y with minutes := tv }) (fun a => rfl) st.jobs]
                  rw [show st.jobs.find? (fun y => y.id == x) = some j from hf]
                  rfl
                have hT : (updFirst (fun y => y.job_id == x)
                    (fun y => { y with time_interval := tv }) st.store).find? (fun y => y.job_id == x) =
                    some { m with time_interval := tv } := by
                  rw [find_updFirst_self (fun y => y.job_id == x)
                    (fun y => { y with time_interval := tv }) (fun a => rfl) st.store, hm]
                  rfl
                unfold storeInterval engineInterval
                simp only [hE, hT]
                rfl
              · have hxid' : (id == x) = false := beq_eq_false_iff_ne.mpr (fun hc => hxid hc.symm)
                have hE : engineInterval (SchedState.mk (updFirst (fun y => y.id == id)
                    (fun y => { y with minutes := tv }) st.jobs)
                    (updFirst (fun y => y.job_id == id)
                      (fun y => { y with time_interval := tv }) st.store)) x =
                    engineInterval st x := by
                  unfold engineInterval
                  rw [find_updFirst_other (fun y => y.id == id) (fun y => y.id == x)
                    (fun y => { y with minutes := tv }) (fun a => rfl)
                    (fun a ha => by
                      have h1 : a.id = id := by simpa using ha
                      show (a.id == x) = false
                      rw [h1]
                      exact hxid') st.jobs]
                have hT : storeInterval (SchedState.mk (updFirst (fun y => y.id == id)
                    (fun y => { y with minutes := tv }) st.jobs)
                    (updFirst (fun y => y.job_id == id)
                      (fun y => { y with time_interval := tv }) st.store)) x =
                    storeInterval st x := by
                  unfold storeInterval
                  rw [find_updFirst_other (fun y => y.job_id == id) (fun y => y.job_id == x)
                    (fun y => { y with time_interval := tv }) (fun a => rfl)
                    (fun a ha => by
                      have h1 : a.job_id = id := by simpa using ha
                      show (a.job_id == x) = false
                      rw [h1]
                      exact hxid') st.store]
                rw [hE, hT]
                exact hA x hx'

/-- C1 amended: the interval half of the invariant holds — starting from a
state where every registered id's store interval matches its engine interval,
any sequence of `startJob`/`pauseJob`/`updateInterval` calls that each report
full success preserves `Store.interval(id) == Engine.interval(id)` for every
registered id.  The enabled half fails, because `start_job` and `pause_job`
never write the store (see the counterexample). -/
theorem c1_interval_half_invariant (cmds : List Cmd) (st : SchedState)
    (hA : IntervalAgree st) (hS : (runCmds st cmds).2 = true) :
    IntervalAgree (runCmds st cmds).1 := by
  induction cmds generalizing st with
  | nil => exact hA
  | cons c cs ih =>
      simp only [runCmds] at hS ⊢
      rw [Bool.and_eq_true] at hS
      exact ih (runCmd st c).state (runCmd_preserves_IntervalAgree st c hA hS.1) hS.2

/-- C1 witness: running pause, update-to-30 and start on "j1" from the
consistent state `st0`, each fully successful, keeps the store interval equal
to the engine interval for every registered id. -/
theorem c1_interval_half_invariant_witness :
    IntervalAgree (runCmds st0 [Cmd.pause "j1", Cmd.upd "j1" 30, Cmd.start "j1"]).1 :=
  c1_interval_half_invariant [Cmd.pause "j1", Cmd.upd "j1" 30, Cmd.start "j1"] st0
    (by unfold IntervalAgree; decide) (by decide)
